import Mathlib

/-!
Shallow embedding of the gogettitles `search` package: the canonical result
model, the two provider adapters (OMDB and TMDB) and their shared pagination
loop.  The network is modelled as an oracle `fetch : String → Nat → PageFetch β`
giving, for each query and page number, either a transport failure, a JSON
decode failure, or a decoded response body together with the HTTP status code.
The pagination loop of `Search` is modelled with explicit fuel (the Go loop has
no a-priori bound; running out of fuel returns `none` and models divergence).
Every function also reports the list of page numbers actually requested from
the network, so that claims about the number of network calls are statable.
-/

namespace GoGetTitles

/-- ResultType: in the source, `type ResultType string` is an open string type
with the constants below (`client.go`). -/
abbrev ResultType := String

def Movie : ResultType := "movie"

def Series : ResultType := "series"

def Episode : ResultType := "episode"

/-- SearchResult as defined in `client.go` (the variant used by the TMDB
adapter, which also carries `ProviderId`; the OMDB adapter leaves it at the
zero value `""`). -/
structure SearchResult where
  title : String
  year : String
  imdbID : String
  providerId : String
  posterURL : String
  type : ResultType
deriving DecidableEq, Repr

/-- Decoded shape of one item of the OMDB response array `Search`
(`omdb_client.go`, the anonymous struct in `searchPage`). -/
structure OmdbItem where
  title : String
  year : String
  imdbID : String
  posterURL : String
  type : ResultType
deriving DecidableEq, Repr

/-- Decoded shape of an OMDB response body (`omdb_client.go`): `Search`,
`totalResults` (a decimal string) and `Error`. -/
structure OmdbResponse where
  result : List OmdbItem
  totalResults : String
  error : String
deriving DecidableEq, Repr

/-- Decoded shape of one item of the TMDB response array `results`
(`tmdb_client.go`). -/
structure TmdbItem where
  title : String
  name : String
  year : String
  imdbID : String
  posterURL : String
  type : String
  tmdbId : Int
deriving DecidableEq, Repr

/-- Decoded shape of a TMDB response body (`tmdb_client.go`). -/
structure TmdbResponse where
  result : List TmdbItem
  totalResults : Int
  totalPages : Int
  success : Bool
  statusMessage : String
deriving DecidableEq, Repr

/-- Outcome of one outbound page request: the transport fails (`client.Do`
returns an error, which includes context cancellation), the body fails to
decode as the expected JSON shape, or a decoded body arrives together with
its HTTP status code. -/
inductive PageFetch (β : Type) where
  | transportErr (msg : String)
  | decodeErr (msg : String)
  | ok (status : Nat) (body : β)
deriving DecidableEq, Repr

/-- Error outcomes of the adapters, one constructor per distinct error-producing
code path of the source (the Go code builds these with `fmt.Errorf` or returns
the underlying error unchanged). -/
inductive SearchError where
  | invalidMaxResults (n : Int)
  | transport (msg : String)
  | parsing (msg : String)
  | provider (msg : String)
  | conversion (msg : String)
deriving DecidableEq, Repr

/-- Digit accumulator used by `goAtoi`. -/
def goAtoiDigits (ds : List Char) : Nat :=
  ds.foldl (fun a c => a * 10 + (c.toNat - 48)) 0

/-- Model of Go `strconv.Atoi`: an optional sign followed by a nonempty run of
decimal digits; anything else (including the empty string) is an error,
modelled as `none`. -/
def goAtoi (s : String) : Option Int :=
  match s.data with
  | [] => none
  | c :: rest =>
    let signed : Bool × List Char :=
      if c = '-' then (true, rest)
      else if c = '+' then (false, rest)
      else (false, c :: rest)
    if signed.2 = [] then none
    else if signed.2.all Char.isDigit then
      some (if signed.1 then -(goAtoiDigits signed.2 : Int) else (goAtoiDigits signed.2 : Int))
    else none

/-- Conversion of one decoded OMDB item to a canonical SearchResult
(`omdb_client.go`, the loop body of `searchPage`; `ProviderId` is not set). -/
def omdbToResult (r : OmdbItem) : SearchResult :=
  ⟨r.title, r.year, r.imdbID, "", r.posterURL, r.type⟩

/-- The conversion loop of `OmdbSearcher.searchPage`: for each decoded item,
decrement `maxResults`, stop once it drops below zero, otherwise append the
converted item.  Returns the final counter and the extended slice. -/
def omdbConvertLoop (maxResults : Int) (items : List OmdbItem)
    (results : List SearchResult) : Int × List SearchResult :=
  match items with
  | [] => (maxResults, results)
  | r :: rest =>
    let m := maxResults - 1
    if m < 0 then (m, results)
    else omdbConvertLoop m rest (results ++ [omdbToResult r])

/-- The TMDB `media_type` mapping of `TmdbSearcher.searchPage`: "movie" and
"tv" map into the closed enum, every other native type has no mapping. -/
def tmdbType (t : String) : Option ResultType :=
  match t with
  | "movie" => some Movie
  | "tv" => some Series
  | _ => none

/-- Whether a decoded TMDB item has a mapping into the closed enum. -/
def tmdbMapped (r : TmdbItem) : Bool := (tmdbType r.type).isSome

/-- Conversion of one decoded TMDB item to a canonical SearchResult
(`tmdb_client.go`): the title falls back to `name` when `title` is empty, and
`ProviderId` is the decimal rendering of the numeric TMDB id. -/
def tmdbToResult (r : TmdbItem) : SearchResult :=
  ⟨if r.title ≠ "" then r.title else r.name, r.year, r.imdbID,
    toString r.tmdbId, r.posterURL, (tmdbType r.type).getD Movie⟩

/-- The conversion loop of `TmdbSearcher.searchPage`: items whose `media_type`
has no mapping are skipped without touching the counter; mapped items decrement
the counter, and the loop stops once it drops below zero. -/
def tmdbConvertLoop (maxResults : Int) (items : List TmdbItem)
    (results : List SearchResult) : Int × List SearchResult :=
  match items with
  | [] => (maxResults, results)
  | r :: rest =>
    match tmdbType r.type with
    | none => tmdbConvertLoop maxResults rest results
    | some _ =>
      let m := maxResults - 1
      if m < 0 then (m, results)
      else tmdbConvertLoop m rest (results ++ [tmdbToResult r])

/-- OMDB not-found sentinel string checked by `OmdbSearcher.searchPage`. -/
def omdbNotFound : String := "Movie not found!"

/-- One page fetch of `OmdbSearcher.searchPage`, returning the pages actually
requested together with either an error or the extended result slice and the
continuation flag.  Mirrors the source line by line: guard on `maxResults`,
issue the request, decode, treat the not-found sentinel as an empty success,
fail on any other nonempty `Error`, run the conversion loop, parse
`totalResults` with Atoi, and compare the cumulative result count against it. -/
def omdbSearchPage (fetch : String → Nat → PageFetch OmdbResponse) (query : String)
    (maxResults : Int) (pageNumber : Nat) (results : List SearchResult) :
    List Nat × Except SearchError (List SearchResult × Bool) :=
  if maxResults ≤ 0 then ([], .error (.invalidMaxResults maxResults))
  else
    match fetch query pageNumber with
    | .transportErr msg => ([pageNumber], .error (.transport msg))
    | .decodeErr msg => ([pageNumber], .error (.parsing msg))
    | .ok _status body =>
      if body.error = omdbNotFound then ([pageNumber], .ok (results, false))
      else if body.error ≠ "" then
        ([pageNumber], .error (.provider
          ("OMDB API request failed with error: " ++ body.error)))
      else
        let conv := omdbConvertLoop maxResults body.result results
        match goAtoi body.totalResults with
        | none =>
          ([pageNumber], .error (.conversion
            ("failed to convert totalResults to int: strconv.Atoi: parsing \""
              ++ body.totalResults ++ "\": invalid syntax")))
        | some totalResults =>
          if (conv.2.length : Int) < totalResults ∧ conv.1 > 0 then
            ([pageNumber], .ok (conv.2, true))
          else
            ([pageNumber], .ok (conv.2, false))

/-- One page fetch of `TmdbSearcher.searchPage`: guard on `maxResults`, issue
the request, decode, fail unless the status is 200 and the success flag is not
an explicit failure with a message, run the conversion loop, and compare the
current page number against the reported total page count. -/
def tmdbSearchPage (fetch : String → Nat → PageFetch TmdbResponse) (query : String)
    (maxResults : Int) (pageNumber : Nat) (results : List SearchResult) :
    List Nat × Except SearchError (List SearchResult × Bool) :=
  if maxResults ≤ 0 then ([], .error (.invalidMaxResults maxResults))
  else
    match fetch query pageNumber with
    | .transportErr msg => ([pageNumber], .error (.transport msg))
    | .decodeErr msg => ([pageNumber], .error (.parsing msg))
    | .ok status body =>
      if status ≠ 200 ∨ (¬body.success ∧ body.statusMessage ≠ "") then
        ([pageNumber], .error (.provider
          ("search request failed: " ++ body.statusMessage)))
      else
        let conv := tmdbConvertLoop maxResults body.result results
        if (pageNumber : Int) < body.totalPages ∧ conv.1 > 0 then
          ([pageNumber], .ok (conv.2, true))
        else
          ([pageNumber], .ok (conv.2, false))

/-- The shared pagination loop of `Search` (duplicated verbatim in both
adapters): while fewer than `maxResults` results are accumulated, fetch the
next page with the remaining quota, abort on error, stop when the adapter
reports no further page, otherwise increment the page counter.  `fuel` bounds
the number of iterations; exhausting it returns `none` (the Go loop would
still be running). -/
def searchLoop
    (page : Int → Nat → List SearchResult →
      List Nat × Except SearchError (List SearchResult × Bool))
    (maxResults : Int) (pageNumber : Nat) (results : List SearchResult) :
    Nat → Option (List Nat × Except SearchError (List SearchResult))
  | 0 => none
  | fuel + 1 =>
    if (results.length : Int) < maxResults then
      match page (maxResults - results.length) pageNumber results with
      | (pages, .error e) => some (pages, .error e)
      | (pages, .ok (newResults, true)) =>
        match searchLoop page maxResults (pageNumber + 1) newResults fuel with
        | none => none
        | some (restPages, r) => some (pages ++ restPages, r)
      | (pages, .ok (newResults, false)) => some (pages, .ok newResults)
    else
      some ([], .ok results)

/-- `OmdbSearcher.Search`: reject a non-positive quota before any network
traffic, then run the pagination loop from page 1 with an empty accumulator. -/
def omdbSearch (fetch : String → Nat → PageFetch OmdbResponse) (query : String)
    (maxResults : Int) (fuel : Nat) :
    Option (List Nat × Except SearchError (List SearchResult)) :=
  if maxResults ≤ 0 then some ([], .error (.invalidMaxResults maxResults))
  else searchLoop (omdbSearchPage fetch query) maxResults 1 [] fuel

/-- `TmdbSearcher.Search`: identical control flow to `omdbSearch`. -/
def tmdbSearch (fetch : String → Nat → PageFetch TmdbResponse) (query : String)
    (maxResults : Int) (fuel : Nat) :
    Option (List Nat × Except SearchError (List SearchResult)) :=
  if maxResults ≤ 0 then some ([], .error (.invalidMaxResults maxResults))
  else searchLoop (tmdbSearchPage fetch query) maxResults 1 [] fuel

/-- Page `pageNumber` (1-based) of a corpus cut into pages of `s` items. -/
def pageSlice (s : Nat) (corpus : List α) (pageNumber : Nat) : List α :=
  (corpus.drop ((pageNumber - 1) * s)).take s

/-- An honest OMDB provider: every page request returns status 200, the slice
of the corpus belonging to that page, an empty `Error`, and a `totalResults`
string `ts` (honesty of the reported total is the hypothesis
`goAtoi ts = some corpus.length` in the theorems below). -/
def omdbHonestFetch (s : Nat) (corpus : List OmdbItem) (ts : String) :
    String → Nat → PageFetch OmdbResponse :=
  fun _ p => .ok 200 ⟨pageSlice s corpus p, ts, ""⟩

/-- An honest TMDB provider: every page request returns status 200, the slice
of the corpus belonging to that page, the true total count and the true total
page count, a true success flag and an empty status message. -/
def tmdbHonestFetch (s : Nat) (corpus : List TmdbItem) :
    String → Nat → PageFetch TmdbResponse :=
  fun _ p => .ok 200 ⟨pageSlice s corpus p, corpus.length,
    (((corpus.length + s - 1) / s : Nat) : Int), true, ""⟩

/-- Items of the body decoded from the OMDB fetch oracle at a page (empty when
the fetch does not produce a decoded body). -/
def omdbPageItems (fetch : String → Nat → PageFetch OmdbResponse)
    (query : String) (p : Nat) : List OmdbItem :=
  match fetch query p with
  | .ok _ body => body.result
  | _ => []

/-- Items of the body decoded from the TMDB fetch oracle at a page. -/
def tmdbPageItems (fetch : String → Nat → PageFetch TmdbResponse)
    (query : String) (p : Nat) : List TmdbItem :=
  match fetch query p with
  | .ok _ body => body.result
  | _ => []

/-- The block of canonical results the OMDB adapter contributes from page `p`
when it consumes the first `k` decoded items of that page. -/
def omdbSelect (fetch : String → Nat → PageFetch OmdbResponse)
    (query : String) (p k : Nat) : List SearchResult :=
  ((omdbPageItems fetch query p).take k).map omdbToResult

/-- The block of canonical results the TMDB adapter contributes from page `p`
when it consumes the first `k` mapped decoded items of that page. -/
def tmdbSelect (fetch : String → Nat → PageFetch TmdbResponse)
    (query : String) (p k : Nat) : List SearchResult :=
  (((tmdbPageItems fetch query p).filter tmdbMapped).take k).map tmdbToResult

/-- A one-page OMDB oracle whose single item has the unmapped native type
"person"; used to exercise the absence of type filtering in the OMDB
adapter. -/
def omdbPersonFetch : String → Nat → PageFetch OmdbResponse :=
  fun _ p =>
    if p = 1 then .ok 200 ⟨[⟨"X", "2020", "id0", "poster0", "person"⟩], "1", ""⟩
    else .transportErr "no such page"

/-- A one-page OMDB oracle answering with HTTP status 500 but a decodable body
whose `Error` field is empty; used to exercise the OMDB adapter's disregard of
the HTTP status code. -/
def omdbStatus500Fetch : String → Nat → PageFetch OmdbResponse :=
  fun _ p =>
    if p = 1 then .ok 500 ⟨[⟨"Y", "1999", "id1", "poster1", "movie"⟩], "1", ""⟩
    else .transportErr "no such page"

/-- Characterization of the OMDB conversion loop for a nonnegative counter:
it appends the conversion of the first `m` items (all of them when the page is
shorter) and returns `m - length` as leftover, or `-1` when it broke early. -/
theorem omdbConvertLoop_eq (items : List OmdbItem) :
    ∀ (m : Int), 0 ≤ m → ∀ (acc : List SearchResult),
      omdbConvertLoop m items acc =
        (if (items.length : Int) ≤ m then m - items.length else -1,
         acc ++ (items.take m.toNat).map omdbToResult) := by
  induction items with
  | nil =>
    intro m hm acc
    simp [omdbConvertLoop, hm]
  | cons r rest ih =>
    intro m hm acc
    rw [omdbConvertLoop]
    by_cases h : m - 1 < 0
    · have hm0 : m = 0 := by omega
      subst hm0
      simp only [h, if_true, List.length_cons]
      rw [if_neg (by push_cast; omega)]
      simp
    · simp only [if_neg h]
      rw [ih (m - 1) (by omega)]
      have hto : m.toNat = (m - 1).toNat + 1 := by omega
      refine Prod.ext ?_ ?_
      · simp only [List.length_cons]
        split <;> split <;> push_cast at * <;> omega
      · simp only [hto, List.take_succ_cons, List.map_cons, List.append_assoc,
          List.singleton_append]
/-- Characterization of the TMDB conversion loop for a nonnegative counter:
unmapped items are dropped without touching the counter, so the loop appends
the conversion of the first `m` mapped items and its leftover counter depends
only on the number of mapped items. -/
theorem tmdbConvertLoop_eq (items : List TmdbItem) :
    ∀ (m : Int), 0 ≤ m → ∀ (acc : List SearchResult),
      tmdbConvertLoop m items acc =
        (if ((items.filter tmdbMapped).length : Int) ≤ m then
            m - (items.filter tmdbMapped).length else -1,
         acc ++ ((items.filter tmdbMapped).take m.toNat).map tmdbToResult) := by
  induction items with
  | nil =>
    intro m hm acc
    simp [tmdbConvertLoop, hm]
  | cons r rest ih =>
    intro m hm acc
    rw [tmdbConvertLoop]
    cases htype : tmdbType r.type with
    | none =>
      have hmap : tmdbMapped r = false := by simp [tmdbMapped, htype]
      rw [ih m hm acc]
      simp [List.filter_cons, hmap]
    | some rt =>
      have hmap : tmdbMapped r = true := by simp [tmdbMapped, htype]
      simp only [List.filter_cons, hmap, if_true, List.length_cons]
      by_cases h : m - 1 < 0
      · have hm0 : m = 0 := by omega
        subst hm0
        simp only [h, if_true]
        rw [if_neg (by push_cast; omega)]
        simp
      · simp only [if_neg h]
        rw [ih (m - 1) (by omega)]
        have hto : m.toNat = (m - 1).toNat + 1 := by omega
        refine Prod.ext ?_ ?_
        · simp only
          split <;> split <;> push_cast at * <;> omega
        · simp only [hto, List.take_succ_cons, List.map_cons, List.append_assoc,
            List.singleton_append]
/-- On a decode failure the OMDB page fetch aborts with the decode reason. -/
theorem omdbSearchPage_decodeErr (fetch : String → Nat → PageFetch OmdbResponse)
    (q : String) {m : Int} (hm : 0 < m) {p : Nat} {msg : String}
    (hf : fetch q p = .decodeErr msg) (acc : List SearchResult) :
    omdbSearchPage fetch q m p acc = ([p], .error (.parsing msg)) := by
  simp only [omdbSearchPage, hf]
  rw [if_neg (by omega)]

/-- On a decode failure the TMDB page fetch aborts with the decode reason. -/
theorem tmdbSearchPage_decodeErr (fetch : String → Nat → PageFetch TmdbResponse)
    (q : String) {m : Int} (hm : 0 < m) {p : Nat} {msg : String}
    (hf : fetch q p = .decodeErr msg) (acc : List SearchResult) :
    tmdbSearchPage fetch q m p acc = ([p], .error (.parsing msg)) := by
  simp only [tmdbSearchPage, hf]
  rw [if_neg (by omega)]

/-- A response carrying the OMDB not-found sentinel is an empty success with
no further pages, regardless of the rest of the body or the HTTP status. -/
theorem omdbSearchPage_notFound (fetch : String → Nat → PageFetch OmdbResponse)
    (q : String) {m : Int} (hm : 0 < m) {p : Nat} {st : Nat} {body : OmdbResponse}
    (hf : fetch q p = .ok st body) (he : body.error = omdbNotFound)
    (acc : List SearchResult) :
    omdbSearchPage fetch q m p acc = ([p], .ok (acc, false)) := by
  simp only [omdbSearchPage, hf]
  rw [if_neg (by omega), if_pos he]

/-- A response whose `Error` field is nonempty and not the sentinel makes the
OMDB page fetch fail with the provider's error text, whatever the status. -/
theorem omdbSearchPage_providerErr (fetch : String → Nat → PageFetch OmdbResponse)
    (q : String) {m : Int} (hm : 0 < m) {p : Nat} {st : Nat} {body : OmdbResponse}
    (hf : fetch q p = .ok st body) (he : body.error ≠ "")
    (hnf : body.error ≠ omdbNotFound) (acc : List SearchResult) :
    omdbSearchPage fetch q m p acc =
      ([p], .error (.provider ("OMDB API request failed with error: " ++ body.error))) := by
  simp only [omdbSearchPage, hf]
  rw [if_neg (by omega), if_neg hnf, if_pos he]

/-- A non-200 status, or an explicit failure flag with a nonempty message,
makes the TMDB page fetch fail with the provider's status message. -/
theorem tmdbSearchPage_providerErr (fetch : String → Nat → PageFetch TmdbResponse)
    (q : String) {m : Int} (hm : 0 < m) {p : Nat} {st : Nat} {body : TmdbResponse}
    (hf : fetch q p = .ok st body)
    (hc : st ≠ 200 ∨ (¬body.success ∧ body.statusMessage ≠ ""))
    (acc : List SearchResult) :
    tmdbSearchPage fetch q m p acc =
      ([p], .error (.provider ("search request failed: " ++ body.statusMessage))) := by
  simp only [tmdbSearchPage, hf]
  rw [if_neg (by omega), if_pos (by simpa using hc)]

/-- A decodable OMDB body with empty `Error` but unparseable `totalResults`
makes the page fetch fail with a conversion error, independent of the items. -/
theorem omdbSearchPage_convErr (fetch : String → Nat → PageFetch OmdbResponse)
    (q : String) {m : Int} (hm : 0 < m) {p : Nat} {st : Nat} {body : OmdbResponse}
    (hf : fetch q p = .ok st body) (he : body.error = "")
    (ht : goAtoi body.totalResults = none) (acc : List SearchResult) :
    omdbSearchPage fetch q m p acc =
      ([p], .error (.conversion
        ("failed to convert totalResults to int: strconv.Atoi: parsing \""
          ++ body.totalResults ++ "\": invalid syntax"))) := by
  simp only [omdbSearchPage, hf, ht]
  rw [if_neg (by omega), if_neg (by rw [he]; decide), if_neg (by simp [he])]

/-- Success path of the OMDB page fetch: with empty `Error` and a parseable
total, it appends the first `m` items (converted) and continues exactly when
the cumulative result count is below the reported total and the page had
fewer items than the remaining quota. -/
theorem omdbSearchPage_success (fetch : String → Nat → PageFetch OmdbResponse)
    (q : String) {m : Int} (hm : 0 < m) {p : Nat} {st : Nat} {body : OmdbResponse}
    (hf : fetch q p = .ok st body) (he : body.error = "")
    {total : Int} (ht : goAtoi body.totalResults = some total) (acc : List SearchResult) :
    omdbSearchPage fetch q m p acc =
      ([p], .ok (acc ++ (body.result.take m.toNat).map omdbToResult,
        decide (((acc.length + min m.toNat body.result.length : Nat) : Int) < total ∧
          (body.result.length : Int) < m))) := by
  simp only [omdbSearchPage, hf, ht, omdbConvertLoop_eq body.result m (by omega)]
  rw [if_neg (by omega), if_neg (by rw [he]; decide), if_neg (by simp [he])]
  have hiff : ((acc ++ (body.result.take m.toNat).map omdbToResult).length : Int) < total ∧
      (if (body.result.length : Int) ≤ m then m - body.result.length else -1) > 0 ↔
      (((acc.length + min m.toNat body.result.length : Nat) : Int) < total ∧
        (body.result.length : Int) < m) := by
    simp only [List.length_append, List.length_map, List.length_take]
    constructor
    · rintro ⟨h1, h2⟩
      refine ⟨by push_cast at *; omega, ?_⟩
      by_cases hle : (body.result.length : Int) ≤ m
      · rw [if_pos hle] at h2; omega
      · rw [if_neg hle] at h2; omega
    · rintro ⟨h1, h2⟩
      refine ⟨by push_cast at *; omega, ?_⟩
      rw [if_pos (by omega)]
      omega
  by_cases hC : (((acc.length + min m.toNat body.result.length : Nat) : Int) < total ∧
      (body.result.length : Int) < m)
  · rw [if_pos (by simpa using hiff.mpr hC), decide_eq_true hC]
  · rw [if_neg (by simpa using fun h => hC (hiff.mp h)), decide_eq_false hC]

/-- Success path of the TMDB page fetch: with status 200 and no failure
signal, it appends the first `m` mapped items (converted) and continues
exactly when the current page number is below the reported total page count
and the page had fewer mapped items than the remaining quota. -/
theorem tmdbSearchPage_success (fetch : String → Nat → PageFetch TmdbResponse)
    (q : String) {m : Int} (hm : 0 < m) {p : Nat} {body : TmdbResponse}
    (hf : fetch q p = .ok 200 body)
    (hok : body.success = true ∨ body.statusMessage = "") (acc : List SearchResult) :
    tmdbSearchPage fetch q m p acc =
      ([p], .ok (acc ++ ((body.result.filter tmdbMapped).take m.toNat).map tmdbToResult,
        decide ((p : Int) < body.totalPages ∧
          ((body.result.filter tmdbMapped).length : Int) < m))) := by
  simp only [tmdbSearchPage, hf, tmdbConvertLoop_eq body.result m (by omega)]
  rw [if_neg (by omega), if_neg (by rcases hok with h | h <;> simp [h])]
  have hiff : (p : Int) < body.totalPages ∧
      (if ((body.result.filter tmdbMapped).length : Int) ≤ m then
        m - (body.result.filter tmdbMapped).length else -1) > 0 ↔
      ((p : Int) < body.totalPages ∧
        ((body.result.filter tmdbMapped).length : Int) < m) := by
    constructor
    · rintro ⟨h1, h2⟩
      refine ⟨h1, ?_⟩
      by_cases hle : ((body.result.filter tmdbMapped).length : Int) ≤ m
      · rw [if_pos hle] at h2; omega
      · rw [if_neg hle] at h2; omega
    · rintro ⟨h1, h2⟩
      exact ⟨h1, by rw [if_pos (by omega)]; omega⟩
  by_cases hC : ((p : Int) < body.totalPages ∧
      ((body.result.filter tmdbMapped).length : Int) < m)
  · rw [if_pos (by simpa using hiff.mpr hC), decide_eq_true hC]
  · rw [if_neg (by simpa using fun h => hC (hiff.mp h)), decide_eq_false hC]
/-- With fuel left and quota remaining, a page fetch that errors aborts the
whole loop with that error and no further page request. -/
theorem searchLoop_firstError
    (page : Int → Nat → List SearchResult →
      List Nat × Except SearchError (List SearchResult × Bool))
    (max : Int) (n : Nat) (acc : List SearchResult) (fuel : Nat)
    {e : SearchError} {pages1 : List Nat}
    (hg : (acc.length : Int) < max)
    (hp : page (max - acc.length) n acc = (pages1, .error e)) :
    searchLoop page max n acc (fuel + 1) = some (pages1, .error e) := by
  rw [searchLoop, if_pos hg, hp]

/-- With fuel left and quota remaining, a page fetch reporting no further page
ends the loop successfully with the extended results. -/
theorem searchLoop_stop
    (page : Int → Nat → List SearchResult →
      List Nat × Except SearchError (List SearchResult × Bool))
    (max : Int) (n : Nat) (acc : List SearchResult) (fuel : Nat)
    {res : List SearchResult} {pages1 : List Nat}
    (hg : (acc.length : Int) < max)
    (hp : page (max - acc.length) n acc = (pages1, .ok (res, false))) :
    searchLoop page max n acc (fuel + 1) = some (pages1, .ok res) := by
  rw [searchLoop, if_pos hg, hp]

/-- Generic quota bound for the pagination loop: if every successful page
fetch extends the accumulator by at most the remaining quota it was given,
then a loop started below the quota never returns more than `max` results. -/
theorem searchLoop_length_le
    (page : Int → Nat → List SearchResult →
      List Nat × Except SearchError (List SearchResult × Bool))
    (max : Int)
    (Hpage : ∀ (m : Int) (p : Nat) (acc : List SearchResult) (pages : List Nat)
      (res : List SearchResult) (more : Bool), 0 < m →
      page m p acc = (pages, .ok (res, more)) → (res.length : Int) ≤ acc.length + m) :
    ∀ (fuel n : Nat) (acc : List SearchResult) (pages : List Nat)
      (res : List SearchResult),
      (acc.length : Int) ≤ max →
      searchLoop page max n acc fuel = some (pages, .ok res) →
      (res.length : Int) ≤ max := by
  intro fuel
  induction fuel with
  | zero =>
    intro n acc pages res hacc h
    simp [searchLoop] at h
  | succ f ih =>
    intro n acc pages res hacc h
    rw [searchLoop] at h
    by_cases hg : (acc.length : Int) < max
    · rw [if_pos hg] at h
      rcases hp : page (max - acc.length) n acc with ⟨pages1, out⟩
      rw [hp] at h
      have hbound : ∀ r : List SearchResult, ∀ b : Bool,
          out = .ok (r, b) → (r.length : Int) ≤ max := by
        intro r b hout
        have := Hpage (max - acc.length) n acc pages1 r b (by omega) (by rw [hp, hout])
        omega
      cases out with
      | error e => simp at h
      | ok pr =>
        rcases pr with ⟨newRes, more⟩
        cases more with
        | false =>
          simp only [Option.some.injEq, Prod.mk.injEq, Except.ok.injEq] at h
          rcases h with ⟨-, h2⟩
          rw [← h2]
          exact hbound newRes false rfl
        | true =>
          simp only [] at h
          rcases hrec : searchLoop page max (n + 1) newRes f with _ | ⟨restPages, r⟩
          · rw [hrec] at h
            simp at h
          · rw [hrec] at h
            simp only [Option.some.injEq, Prod.mk.injEq] at h
            rcases h with ⟨-, h2⟩
            subst h2
            exact ih (n + 1) newRes restPages res (hbound newRes true rfl) hrec
    · rw [if_neg hg] at h
      simp only [Option.some.injEq, Prod.mk.injEq, Except.ok.injEq] at h
      rcases h with ⟨-, h2⟩
      rw [← h2]
      exact hacc
/-- Generic ordering property of the pagination loop: if every successful page
fetch requests exactly its own page and appends a block determined by that
page (through some size parameter `k`), then a successful loop run requests
consecutively ascending pages starting at its first page, and returns the
initial accumulator followed by the per-page blocks concatenated in ascending
page order. -/
theorem searchLoop_order
    (page : Int → Nat → List SearchResult →
      List Nat × Except SearchError (List SearchResult × Bool))
    (max : Int) (select : Nat → Nat → List SearchResult)
    (Hpage : ∀ (m : Int) (p : Nat) (acc : List SearchResult) (pages : List Nat)
      (res : List SearchResult) (more : Bool), 0 < m →
      page m p acc = (pages, .ok (res, more)) →
      pages = [p] ∧ ∃ k, res = acc ++ select p k) :
    ∀ (fuel n : Nat) (acc : List SearchResult) (pages : List Nat)
      (res : List SearchResult),
      searchLoop page max n acc fuel = some (pages, .ok res) →
      pages = List.range' n pages.length ∧
      ∃ ks : List Nat, ks.length = pages.length ∧
        res = acc ++ ((pages.zip ks).map (fun pk => select pk.1 pk.2)).flatten := by
  intro fuel
  induction fuel with
  | zero =>
    intro n acc pages res h
    simp [searchLoop] at h
  | succ f ih =>
    intro n acc pages res h
    rw [searchLoop] at h
    by_cases hg : (acc.length : Int) < max
    · rw [if_pos hg] at h
      rcases hp : page (max - acc.length) n acc with ⟨pages1, out⟩
      rw [hp] at h
      cases out with
      | error e => simp at h
      | ok pr =>
        rcases pr with ⟨newRes, more⟩
        cases more with
        | false =>
          simp only [Option.some.injEq, Prod.mk.injEq, Except.ok.injEq] at h
          rcases h with ⟨h1, h2⟩
          obtain ⟨hpg, k, hres⟩ := Hpage (max - acc.length) n acc pages1 newRes false
            (by omega) hp
          subst h1 h2 hpg
          refine ⟨by simp [List.range'_succ], ⟨[k], by simp, ?_⟩⟩
          simp [hres]
        | true =>
          simp only [] at h
          rcases hrec : searchLoop page max (n + 1) newRes f with _ | ⟨restPages, r⟩
          · rw [hrec] at h
            simp at h
          · rw [hrec] at h
            simp only [Option.some.injEq, Prod.mk.injEq] at h
            rcases h with ⟨h1, h2⟩
            subst h2
            obtain ⟨hpg, k, hres⟩ := Hpage (max - acc.length) n acc pages1 newRes true
              (by omega) hp
            obtain ⟨hrg, ks, hks, hflat⟩ := ih (n + 1) newRes restPages res hrec
            subst h1 hpg
            constructor
            · simp only [List.singleton_append, List.length_cons, List.range'_succ]
              rw [← hrg]
            · refine ⟨k :: ks, by simp [hks], ?_⟩
              simp only [List.singleton_append, List.zip_cons_cons, List.map_cons,
                List.flatten_cons]
              rw [hflat, hres]
              simp [List.append_assoc]
    · rw [if_neg hg] at h
      simp only [Option.some.injEq, Prod.mk.injEq, Except.ok.injEq] at h
      rcases h with ⟨h1, h2⟩
      subst h2
      refine ⟨by simp [← h1], ⟨[], by simp [← h1], by simp [← h1]⟩⟩
/-- Every successful OMDB page fetch extends the accumulator by at most the
remaining quota it was given. -/
theorem omdbSearchPage_extend (fetch : String → Nat → PageFetch OmdbResponse)
    (q : String) :
    ∀ (m : Int) (p : Nat) (acc : List SearchResult) (pages : List Nat)
      (res : List SearchResult) (more : Bool), 0 < m →
      omdbSearchPage fetch q m p acc = (pages, .ok (res, more)) →
      (res.length : Int) ≤ acc.length + m := by
  intro m p acc pages res more hm hp
  rcases hf : fetch q p with msg | msg | ⟨st, body⟩
  · rw [omdbSearchPage, if_neg (by omega), hf] at hp
    simp at hp
  · rw [omdbSearchPage_decodeErr fetch q hm hf acc] at hp
    simp at hp
  · by_cases hnf : body.error = omdbNotFound
    · rw [omdbSearchPage_notFound fetch q hm hf hnf acc] at hp
      simp only [Prod.mk.injEq, Except.ok.injEq] at hp
      rcases hp with ⟨-, h2, -⟩
      subst h2
      omega
    · by_cases he : body.error = ""
      · rcases ht : goAtoi body.totalResults with _ | total
        · rw [omdbSearchPage_convErr fetch q hm hf he ht acc] at hp
          simp at hp
        · rw [omdbSearchPage_success fetch q hm hf he ht acc] at hp
          simp only [Prod.mk.injEq, Except.ok.injEq] at hp
          rcases hp with ⟨-, h2, -⟩
          subst h2
          simp only [List.length_append, List.length_map, List.length_take]
          push_cast
          omega
      · rw [omdbSearchPage_providerErr fetch q hm hf he hnf acc] at hp
        simp at hp

/-- Every successful TMDB page fetch extends the accumulator by at most the
remaining quota it was given. -/
theorem tmdbSearchPage_extend (fetch : String → Nat → PageFetch TmdbResponse)
    (q : String) :
    ∀ (m : Int) (p : Nat) (acc : List SearchResult) (pages : List Nat)
      (res : List SearchResult) (more : Bool), 0 < m →
      tmdbSearchPage fetch q m p acc = (pages, .ok (res, more)) →
      (res.length : Int) ≤ acc.length + m := by
  intro m p acc pages res more hm hp
  rcases hf : fetch q p with msg | msg | ⟨st, body⟩
  · rw [tmdbSearchPage, if_neg (by omega), hf] at hp
    simp at hp
  · rw [tmdbSearchPage_decodeErr fetch q hm hf acc] at hp
    simp at hp
  · by_cases hc : st ≠ 200 ∨ (¬body.success ∧ body.statusMessage ≠ "")
    · rw [tmdbSearchPage_providerErr fetch q hm hf hc acc] at hp
      simp at hp
    · push_neg at hc
      obtain ⟨hst, hok⟩ := hc
      subst hst
      have hok' : body.success = true ∨ body.statusMessage = "" := by
        by_cases hsucc : body.success = true
        · exact Or.inl hsucc
        · exact Or.inr (hok (by simpa using hsucc))
      rw [tmdbSearchPage_success fetch q hm hf hok' acc] at hp
      simp only [Prod.mk.injEq, Except.ok.injEq] at hp
      rcases hp with ⟨-, h2, -⟩
      subst h2
      simp only [List.length_append, List.length_map, List.length_take]
      push_cast
      omega

/-- Every successful OMDB page fetch requests exactly its own page and appends
a block of converted items taken in order from that page's decoded body. -/
theorem omdbSearchPage_block (fetch : String → Nat → PageFetch OmdbResponse)
    (q : String) :
    ∀ (m : Int) (p : Nat) (acc : List SearchResult) (pages : List Nat)
      (res : List SearchResult) (more : Bool), 0 < m →
      omdbSearchPage fetch q m p acc = (pages, .ok (res, more)) →
      pages = [p] ∧ ∃ k, res = acc ++ omdbSelect fetch q p k := by
  intro m p acc pages res more hm hp
  rcases hf : fetch q p with msg | msg | ⟨st, body⟩
  · rw [omdbSearchPage, if_neg (by omega), hf] at hp
    simp at hp
  · rw [omdbSearchPage_decodeErr fetch q hm hf acc] at hp
    simp at hp
  · by_cases hnf : body.error = omdbNotFound
    · rw [omdbSearchPage_notFound fetch q hm hf hnf acc] at hp
      simp only [Prod.mk.injEq, Except.ok.injEq] at hp
      rcases hp with ⟨h1, h2, -⟩
      subst h1 h2
      exact ⟨rfl, 0, by simp [omdbSelect]⟩
    · by_cases he : body.error = ""
      · rcases ht : goAtoi body.totalResults with _ | total
        · rw [omdbSearchPage_convErr fetch q hm hf he ht acc] at hp
          simp at hp
        · rw [omdbSearchPage_success fetch q hm hf he ht acc] at hp
          simp only [Prod.mk.injEq, Except.ok.injEq] at hp
          rcases hp with ⟨h1, h2, -⟩
          subst h1 h2
          exact ⟨rfl, m.toNat, by simp [omdbSelect, omdbPageItems, hf]⟩
      · rw [omdbSearchPage_providerErr fetch q hm hf he hnf acc] at hp
        simp at hp

/-- Every successful TMDB page fetch requests exactly its own page and appends
a block of converted mapped items taken in order from that page's decoded
body. -/
theorem tmdbSearchPage_block (fetch : String → Nat → PageFetch TmdbResponse)
    (q : String) :
    ∀ (m : Int) (p : Nat) (acc : List SearchResult) (pages : List Nat)
      (res : List SearchResult) (more : Bool), 0 < m →
      tmdbSearchPage fetch q m p acc = (pages, .ok (res, more)) →
      pages = [p] ∧ ∃ k, res = acc ++ tmdbSelect fetch q p k := by
  intro m p acc pages res more hm hp
  rcases hf : fetch q p with msg | msg | ⟨st, body⟩
  · rw [tmdbSearchPage, if_neg (by omega), hf] at hp
    simp at hp
  · rw [tmdbSearchPage_decodeErr fetch q hm hf acc] at hp
    simp at hp
  · by_cases hc : st ≠ 200 ∨ (¬body.success ∧ body.statusMessage ≠ "")
    · rw [tmdbSearchPage_providerErr fetch q hm hf hc acc] at hp
      simp at hp
    · push_neg at hc
      obtain ⟨hst, hok⟩ := hc
      subst hst
      have hok' : body.success = true ∨ body.statusMessage = "" := by
        by_cases hsucc : body.success = true
        · exact Or.inl hsucc
        · exact Or.inr (hok (by simpa using hsucc))
      rw [tmdbSearchPage_success fetch q hm hf hok' acc] at hp
      simp only [Prod.mk.injEq, Except.ok.injEq] at hp
      rcases hp with ⟨h1, h2, -⟩
      subst h1 h2
      exact ⟨rfl, m.toNat, by simp [tmdbSelect, tmdbPageItems, hf]⟩
/-- Run of the pagination loop against an honest OMDB provider, starting in
the reachable state "pages 1..k already fully consumed": with enough fuel the
loop succeeds and returns the canonical conversion of the first
`min corpus.length maxResults` corpus items. -/
theorem omdbHonest_loop (s : Nat) (hs : 0 < s) (corpus : List OmdbItem) (ts : String)
    (hts : goAtoi ts = some (corpus.length : Int)) (q : String) (max : Int) :
    ∀ (fuel k : Nat),
      ((k * s : Nat) : Int) < max →
      k * s ≤ corpus.length →
      max ≤ ((k * s : Nat) : Int) + (fuel : Int) →
      ∃ pages, searchLoop (omdbSearchPage (omdbHonestFetch s corpus ts) q) max (k + 1)
          ((corpus.take (k * s)).map omdbToResult) fuel
        = some (pages,
            .ok ((corpus.take (min corpus.length max.toNat)).map omdbToResult)) := by
  intro fuel
  induction fuel with
  | zero =>
    intro k h1 h2 h3
    exfalso
    omega
  | succ f ih =>
    intro k h1 h2 h3
    have hf : omdbHonestFetch s corpus ts q (k + 1) =
        .ok 200 ⟨(corpus.drop (k * s)).take s, ts, ""⟩ := by
      simp [omdbHonestFetch, pageSlice]
    have hlen : ((corpus.take (k * s)).map omdbToResult).length = k * s := by
      simp [List.length_map, List.length_take]
      omega
    have hm : (0 : Int) < max - (((corpus.take (k * s)).map omdbToResult).length : Int) := by
      rw [hlen]
      omega
    rw [searchLoop, if_pos (by rw [hlen]; exact h1),
      omdbSearchPage_success (omdbHonestFetch s corpus ts) q hm hf rfl hts]
    rw [hlen]
    have hchunk : ((corpus.drop (k * s)).take s).length = min s (corpus.length - k * s) := by
      rw [List.length_take, List.length_drop]
    by_cases hC : ((k * s + min (max - (k * s : Nat)).toNat
          ((corpus.drop (k * s)).take s).length : Nat) : Int) < corpus.length ∧
        ((((corpus.drop (k * s)).take s).length : Nat) : Int) < max - (k * s : Nat)
    · rw [decide_eq_true hC]
      rw [hchunk] at hC
      -- the continuing page was full: its length is s and the quota was not met
      have hcl : min s (corpus.length - k * s) = s := by omega
      have hnext : (corpus.take (k * s)).map omdbToResult ++
          (((corpus.drop (k * s)).take s).take (max - (k * s : Nat)).toNat).map omdbToResult =
          (corpus.take ((k + 1) * s)).map omdbToResult := by
        rw [← List.map_append, List.take_take]
        have hmin : min (max - (k * s : Nat)).toNat s = s := by omega
        rw [hmin, ← List.take_add, Nat.succ_mul]
      rw [hnext]
      have hrec := ih (k + 1) (by rw [Nat.succ_mul]; push_cast; omega)
        (by rw [Nat.succ_mul]; omega) (by rw [Nat.succ_mul]; push_cast at *; omega)
      obtain ⟨pages', hrec⟩ := hrec
      refine ⟨(k + 1) :: pages', ?_⟩
      simp only []
      rw [hrec]
      rfl
    · rw [decide_eq_false hC]
      rw [hchunk] at hC
      simp only []
      refine ⟨[k + 1], ?_⟩
      have hres : (corpus.take (k * s)).map omdbToResult ++
          (((corpus.drop (k * s)).take s).take (max - (k * s : Nat)).toNat).map omdbToResult =
          (corpus.take (min corpus.length max.toNat)).map omdbToResult := by
        rw [← List.map_append, List.take_take, ← List.take_add]
        congr 1
        rw [List.take_eq_take]
        omega
      rw [hres]
/-- Arithmetic helper: comparing against the ceiling division used as the
honest TMDB total-page count. -/
theorem lt_ceilDiv_iff (T s k : Nat) (hs : 0 < s) : k < (T + s - 1) / s ↔ k * s < T := by
  constructor
  · intro h
    have h' : k + 1 ≤ (T + s - 1) / s := h
    rw [Nat.le_div_iff_mul_le hs, Nat.succ_mul] at h'
    omega
  · intro h
    have h' : (k + 1) * s ≤ T + s - 1 := by rw [Nat.succ_mul]; omega
    have h2 := (Nat.le_div_iff_mul_le hs).mpr h'
    omega

/-- Run of the pagination loop against an honest TMDB provider over a corpus
all of whose items have a mapped media type, starting in the reachable state
"pages 1..k already fully consumed": with enough fuel the loop succeeds and
returns the canonical conversion of the first `min corpus.length maxResults`
corpus items. -/
theorem tmdbHonest_loop (s : Nat) (hs : 0 < s) (corpus : List TmdbItem)
    (hmap : ∀ r ∈ corpus, tmdbMapped r = true) (q : String) (max : Int) :
    ∀ (fuel k : Nat),
      ((k * s : Nat) : Int) < max →
      k * s ≤ corpus.length →
      max ≤ ((k * s : Nat) : Int) + (fuel : Int) →
      ∃ pages, searchLoop (tmdbSearchPage (tmdbHonestFetch s corpus) q) max (k + 1)
          ((corpus.take (k * s)).map tmdbToResult) fuel
        = some (pages,
            .ok ((corpus.take (min corpus.length max.toNat)).map tmdbToResult)) := by
  intro fuel
  induction fuel with
  | zero =>
    intro k h1 h2 h3
    exfalso
    omega
  | succ f ih =>
    intro k h1 h2 h3
    have hf : tmdbHonestFetch s corpus q (k + 1) =
        .ok 200 ⟨(corpus.drop (k * s)).take s, corpus.length,
          (((corpus.length + s - 1) / s : Nat) : Int), true, ""⟩ := by
      simp [tmdbHonestFetch, pageSlice]
    have hfilter : ((corpus.drop (k * s)).take s).filter tmdbMapped =
        (corpus.drop (k * s)).take s := by
      refine List.filter_eq_self.mpr ?_
      intro r hr
      exact hmap r (List.drop_subset _ _ (List.take_subset _ _ hr))
    have hlen : ((corpus.take (k * s)).map tmdbToResult).length = k * s := by
      simp [List.length_map, List.length_take]
      omega
    have hm : (0 : Int) < max - (((corpus.take (k * s)).map tmdbToResult).length : Int) := by
      rw [hlen]
      omega
    rw [searchLoop, if_pos (by rw [hlen]; exact h1),
      tmdbSearchPage_success (tmdbHonestFetch s corpus) q hm hf (Or.inl rfl)]
    rw [hlen]
    simp only [hfilter]
    have hchunk : ((corpus.drop (k * s)).take s).length = min s (corpus.length - k * s) := by
      rw [List.length_take, List.length_drop]
    by_cases hC : ((k + 1 : Nat) : Int) < ((corpus.length + s - 1) / s : Nat) ∧
        ((((corpus.drop (k * s)).take s).length : Nat) : Int) < max - (k * s : Nat)
    · rw [decide_eq_true hC]
      rw [hchunk] at hC
      have hpages : (k + 1) * s < corpus.length := by
        rcases hC with ⟨hC1, -⟩
        exact (lt_ceilDiv_iff corpus.length s (k + 1) hs).mp (by exact_mod_cast hC1)
      have hcl : min s (corpus.length - k * s) = s := by
        rw [Nat.succ_mul] at hpages
        omega
      have hnext : (corpus.take (k * s)).map tmdbToResult ++
          (((corpus.drop (k * s)).take s).take (max - (k * s : Nat)).toNat).map tmdbToResult =
          (corpus.take ((k + 1) * s)).map tmdbToResult := by
        rw [← List.map_append, List.take_take]
        have hmin : min (max - (k * s : Nat)).toNat s = s := by
          rw [hcl] at hC
          omega
        rw [hmin, ← List.take_add, Nat.succ_mul]
      rw [hnext]
      have hrec := ih (k + 1)
        (by rw [hcl] at hC; rw [Nat.succ_mul]; push_cast; omega)
        (by rw [Nat.succ_mul]; omega)
        (by rw [Nat.succ_mul]; push_cast at *; omega)
      obtain ⟨pages', hrec⟩ := hrec
      refine ⟨(k + 1) :: pages', ?_⟩
      simp only []
      rw [hrec]
      rfl
    · rw [decide_eq_false hC]
      rw [hchunk] at hC
      have hC' : ¬((k + 1) * s < corpus.length ∧
          ((min s (corpus.length - k * s) : Nat) : Int) < max - (k * s : Nat)) := by
        intro hcon
        exact hC ⟨by exact_mod_cast
          (lt_ceilDiv_iff corpus.length s (k + 1) hs).mpr hcon.1, hcon.2⟩
      simp only []
      refine ⟨[k + 1], ?_⟩
      have hres : (corpus.take (k * s)).map tmdbToResult ++
          (((corpus.drop (k * s)).take s).take (max - (k * s : Nat)).toNat).map tmdbToResult =
          (corpus.take (min corpus.length max.toNat)).map tmdbToResult := by
        rw [← List.map_append, List.take_take, ← List.take_add]
        congr 1
        rw [List.take_eq_take]
        rw [Nat.succ_mul] at hC'
        omega
      rw [hres]
/-- A TMDB page fetch reports a further page only when the current page number
is below the reported total page count of a decoded body. -/
theorem tmdbSearchPage_more (fetch : String → Nat → PageFetch TmdbResponse)
    (q : String) {m : Int} {p : Nat} {acc : List SearchResult} {pages : List Nat}
    {res : List SearchResult}
    (h : tmdbSearchPage fetch q m p acc = (pages, .ok (res, true))) :
    ∃ st body, fetch q p = .ok st body ∧ (p : Int) < body.totalPages := by
  by_cases hm : m ≤ 0
  · rw [tmdbSearchPage, if_pos hm] at h
    simp at h
  · rcases hf : fetch q p with msg | msg | ⟨st, body⟩
    · rw [tmdbSearchPage, if_neg hm, hf] at h
      simp at h
    · rw [tmdbSearchPage_decodeErr fetch q (by omega) hf acc] at h
      simp at h
    · by_cases hc : st ≠ 200 ∨ (¬body.success ∧ body.statusMessage ≠ "")
      · rw [tmdbSearchPage_providerErr fetch q (by omega) hf hc acc] at h
        simp at h
      · push_neg at hc
        obtain ⟨hst, hok⟩ := hc
        subst hst
        have hok' : body.success = true ∨ body.statusMessage = "" := by
          by_cases hsucc : body.success = true
          · exact Or.inl hsucc
          · exact Or.inr (hok (by simpa using hsucc))
        rw [tmdbSearchPage_success fetch q (by omega) hf hok' acc] at h
        simp only [Prod.mk.injEq, Except.ok.injEq] at h
        rcases h with ⟨-, -, h3⟩
        exact ⟨200, body, rfl, (of_decide_eq_true h3).1⟩

/-- Termination of the pagination loop against any TMDB oracle whose decoded
bodies all report the same total page count `TP`: the loop completes within
`TP` iterations past its starting page, whatever the corpus contents. -/
theorem tmdb_searchLoop_isSome (fetch : String → Nat → PageFetch TmdbResponse)
    (q : String) (max : Int) (TP : Int)
    (H : ∀ (p st : Nat) (body : TmdbResponse), fetch q p = .ok st body →
      body.totalPages = TP) :
    ∀ (fuel n : Nat) (acc : List SearchResult), 1 ≤ fuel →
      TP < (n : Int) + (fuel : Int) →
      (searchLoop (tmdbSearchPage fetch q) max n acc fuel).isSome := by
  intro fuel
  induction fuel with
  | zero =>
    intro n acc h1 h2
    exact absurd h1 (by omega)
  | succ f ih =>
    intro n acc h1 h2
    rw [searchLoop]
    by_cases hg : (acc.length : Int) < max
    · rw [if_pos hg]
      rcases hp : tmdbSearchPage fetch q (max - acc.length) n acc with ⟨pages1, out⟩
      cases out with
      | error e => simp
      | ok pr =>
        rcases pr with ⟨newRes, more⟩
        cases more with
        | false => simp
        | true =>
          obtain ⟨st, body, hfb, hlt⟩ := tmdbSearchPage_more fetch q hp
          rw [H n st body hfb] at hlt
          have hf1 : 1 ≤ f := by omega
          have hrecSome := ih (n + 1) newRes hf1 (by push_cast at *; omega)
          simp only []
          rcases hrec : searchLoop (tmdbSearchPage fetch q) max (n + 1) newRes f
            with _ | ⟨rp, r⟩
          · rw [hrec] at hrecSome
            simp at hrecSome
          · simp
    · rw [if_neg hg]
      simp

/-- C2: for every maxResults ≤ 0, every query and every network oracle
(context behaviour included), both `OmdbSearcher.Search` and
`TmdbSearcher.Search` fail immediately with the invalid-maxResults error and
request no page from the network (the requested-pages list is empty). -/
theorem c2_invalidMaxResults (maxResults : Int) (h : maxResults ≤ 0) :
    (∀ (fetch : String → Nat → PageFetch OmdbResponse) (q : String) (fuel : Nat),
      omdbSearch fetch q maxResults fuel =
        some ([], .error (.invalidMaxResults maxResults))) ∧
    (∀ (fetch : String → Nat → PageFetch TmdbResponse) (q : String) (fuel : Nat),
      tmdbSearch fetch q maxResults fuel =
        some ([], .error (.invalidMaxResults maxResults))) :=
  ⟨fun fetch q fuel => by rw [omdbSearch, if_pos h],
   fun fetch q fuel => by rw [tmdbSearch, if_pos h]⟩

/-- Witness for C2 at maxResults = 0. -/
theorem c2_invalidMaxResults_witness :
    omdbSearch omdbPersonFetch "Matrix" 0 5 =
      some ([], .error (.invalidMaxResults 0)) ∧
    tmdbSearch (fun _ _ => .decodeErr "boom") "Matrix" 0 5 =
      some ([], .error (.invalidMaxResults 0)) :=
  ⟨(c2_invalidMaxResults 0 (by decide)).1 omdbPersonFetch "Matrix" 5,
   (c2_invalidMaxResults 0 (by decide)).2 (fun _ _ => .decodeErr "boom") "Matrix" 5⟩

/-- C4: an OMDB response whose Error field equals the not-found sentinel is
treated by the page fetch as zero results, no further page and no error —
whatever the rest of the body or the HTTP status — and a whole Search call
receiving it on page 1 succeeds with the empty sequence. -/
theorem c4_notFound :
    (∀ (fetch : String → Nat → PageFetch OmdbResponse) (q : String) (m : Int)
      (p st : Nat) (body : OmdbResponse) (acc : List SearchResult), 0 < m →
      fetch q p = .ok st body → body.error = omdbNotFound →
      omdbSearchPage fetch q m p acc = ([p], .ok (acc, false))) ∧
    (∀ (fetch : String → Nat → PageFetch OmdbResponse) (q : String)
      (maxResults : Int) (st : Nat) (body : OmdbResponse) (fuel : Nat),
      0 < maxResults → fetch q 1 = .ok st body → body.error = omdbNotFound →
      omdbSearch fetch q maxResults (fuel + 1) = some ([1], .ok [])) := by
  constructor
  · intro fetch q m p st body acc hm hf he
    exact omdbSearchPage_notFound fetch q hm hf he acc
  · intro fetch q maxResults st body fuel hmax hf he
    rw [omdbSearch, if_neg (by omega)]
    exact searchLoop_stop _ maxResults 1 [] fuel (by simpa using hmax)
      (omdbSearchPage_notFound fetch q (by simpa using hmax) hf he [])

/-- Witness for C4 on a concrete not-found response. -/
theorem c4_notFound_witness :
    omdbSearchPage (fun _ _ => .ok 200 ⟨[], "", "Movie not found!"⟩) "Unknown"
        5 1 [] = ([1], .ok ([], false)) ∧
    omdbSearch (fun _ _ => .ok 200 ⟨[], "", "Movie not found!"⟩) "Unknown" 5 3 =
      some ([1], .ok []) :=
  ⟨c4_notFound.1 (fun _ _ => .ok 200 ⟨[], "", "Movie not found!"⟩) "Unknown"
      5 1 200 ⟨[], "", "Movie not found!"⟩ [] (by decide) rfl rfl,
   c4_notFound.2 (fun _ _ => .ok 200 ⟨[], "", "Movie not found!"⟩) "Unknown"
      5 200 ⟨[], "", "Movie not found!"⟩ 2 (by decide) rfl rfl⟩

/-- C7: a response body that fails to decode as the expected JSON shape makes
the page fetch — and a Search call hitting it on page 1 — fail with the
parsing error carrying the decode failure reason, for both adapters. -/
theorem c7_parsingError :
    (∀ (fetch : String → Nat → PageFetch OmdbResponse) (q : String) (m : Int)
      (p : Nat) (msg : String) (acc : List SearchResult), 0 < m →
      fetch q p = .decodeErr msg →
      omdbSearchPage fetch q m p acc = ([p], .error (.parsing msg))) ∧
    (∀ (fetch : String → Nat → PageFetch TmdbResponse) (q : String) (m : Int)
      (p : Nat) (msg : String) (acc : List SearchResult), 0 < m →
      fetch q p = .decodeErr msg →
      tmdbSearchPage fetch q m p acc = ([p], .error (.parsing msg))) ∧
    (∀ (fetch : String → Nat → PageFetch OmdbResponse) (q : String)
      (maxResults : Int) (msg : String) (fuel : Nat), 0 < maxResults →
      fetch q 1 = .decodeErr msg →
      omdbSearch fetch q maxResults (fuel + 1) = some ([1], .error (.parsing msg))) ∧
    (∀ (fetch : String → Nat → PageFetch TmdbResponse) (q : String)
      (maxResults : Int) (msg : String) (fuel : Nat), 0 < maxResults →
      fetch q 1 = .decodeErr msg →
      tmdbSearch fetch q maxResults (fuel + 1) = some ([1], .error (.parsing msg))) := by
  refine ⟨?_, ?_, ?_, ?_⟩
  · intro fetch q m p msg acc hm hf
    exact omdbSearchPage_decodeErr fetch q hm hf acc
  · intro fetch q m p msg acc hm hf
    exact tmdbSearchPage_decodeErr fetch q hm hf acc
  · intro fetch q maxResults msg fuel hmax hf
    rw [omdbSearch, if_neg (by omega)]
    exact searchLoop_firstError _ maxResults 1 [] fuel (by simpa using hmax)
      (omdbSearchPage_decodeErr fetch q (by simpa using hmax) hf [])
  · intro fetch q maxResults msg fuel hmax hf
    rw [tmdbSearch, if_neg (by omega)]
    exact searchLoop_firstError _ maxResults 1 [] fuel (by simpa using hmax)
      (tmdbSearchPage_decodeErr fetch q (by simpa using hmax) hf [])

/-- Witness for C7 on a concrete malformed body. -/
theorem c7_parsingError_witness :
    omdbSearch (fun _ _ => .decodeErr "unexpected end of JSON input") "Test" 5 3 =
      some ([1], .error (.parsing "unexpected end of JSON input")) ∧
    tmdbSearch (fun _ _ => .decodeErr "unexpected end of JSON input") "Test" 5 3 =
      some ([1], .error (.parsing "unexpected end of JSON input")) :=
  ⟨c7_parsingError.2.2.1 (fun _ _ => .decodeErr "unexpected end of JSON input")
      "Test" 5 "unexpected end of JSON input" 2 (by decide) rfl,
   c7_parsingError.2.2.2 (fun _ _ => .decodeErr "unexpected end of JSON input")
      "Test" 5 "unexpected end of JSON input" 2 (by decide) rfl⟩

/-- C10: an OMDB body that decodes with an empty Error field but an
unparseable `totalResults` string (the empty string included) fails the page
fetch with a conversion error even when the `Search` array is nonempty, and a
Search call hitting it on page 1 fails wholesale, returning no results. -/
theorem c10_totalResultsConversion :
    (∀ (fetch : String → Nat → PageFetch OmdbResponse) (q : String) (m : Int)
      (p st : Nat) (body : OmdbResponse) (acc : List SearchResult), 0 < m →
      fetch q p = .ok st body → body.error = "" →
      goAtoi body.totalResults = none →
      omdbSearchPage fetch q m p acc =
        ([p], .error (.conversion
          ("failed to convert totalResults to int: strconv.Atoi: parsing \""
            ++ body.totalResults ++ "\": invalid syntax")))) ∧
    (∀ (fetch : String → Nat → PageFetch OmdbResponse) (q : String)
      (maxResults : Int) (st : Nat) (body : OmdbResponse) (fuel : Nat),
      0 < maxResults → fetch q 1 = .ok st body → body.error = "" →
      goAtoi body.totalResults = none →
      omdbSearch fetch q maxResults (fuel + 1) =
        some ([1], .error (.conversion
          ("failed to convert totalResults to int: strconv.Atoi: parsing \""
            ++ body.totalResults ++ "\": invalid syntax")))) := by
  constructor
  · intro fetch q m p st body acc hm hf he ht
    exact omdbSearchPage_convErr fetch q hm hf he ht acc
  · intro fetch q maxResults st body fuel hmax hf he ht
    rw [omdbSearch, if_neg (by omega)]
    exact searchLoop_firstError _ maxResults 1 [] fuel (by simpa using hmax)
      (omdbSearchPage_convErr fetch q (by simpa using hmax) hf he ht [])

/-- Witness for C10: a page with one mapped item but an absent `totalResults`
field (decoded as the empty string) fails the whole call. -/
theorem c10_totalResultsConversion_witness :
    omdbSearch (fun _ _ => .ok 200 ⟨[⟨"X", "2020", "id0", "p0", "movie"⟩], "", ""⟩)
        "Test" 5 3 =
      some ([1], .error (.conversion
        ("failed to convert totalResults to int: strconv.Atoi: parsing \""
          ++ "" ++ "\": invalid syntax"))) :=
  c10_totalResultsConversion.2
    (fun _ _ => .ok 200 ⟨[⟨"X", "2020", "id0", "p0", "movie"⟩], "", ""⟩)
    "Test" 5 200 ⟨[⟨"X", "2020", "id0", "p0", "movie"⟩], "", ""⟩ 2
    (by decide) rfl rfl rfl

/-- C6 counterexample: the claim says a page fetch answered with a non-2xx
HTTP status fails with a provider error, but the OMDB adapter never inspects
the status code: a status-500 response with an empty Error field and a valid
body makes the whole Search call succeed and return its item. -/
theorem c6_counterexample :
    omdbSearch omdbStatus500Fetch "Test" 5 6 =
      some ([1], .ok [⟨"Y", "1999", "id1", "", "poster1", "movie"⟩]) := rfl

/-- C6 amended: the OMDB adapter ignores the HTTP status entirely and fails
with a provider error — whose message embeds the provider's error text
verbatim — exactly on a decoded body whose Error field is nonempty and not
the not-found sentinel; the TMDB adapter fails with a provider error — whose
message embeds the provider's status message verbatim — exactly on a non-200
status or an explicit false success flag with a nonempty status message. -/
theorem c6_amended :
    (∀ (fetch : String → Nat → PageFetch OmdbResponse) (q : String) (m : Int)
      (p st : Nat) (body : OmdbResponse) (acc : List SearchResult), 0 < m →
      fetch q p = .ok st body → body.error ≠ "" → body.error ≠ omdbNotFound →
      omdbSearchPage fetch q m p acc =
        ([p], .error (.provider
          ("OMDB API request failed with error: " ++ body.error)))) ∧
    (∀ (fetch : String → Nat → PageFetch TmdbResponse) (q : String) (m : Int)
      (p st : Nat) (body : TmdbResponse) (acc : List SearchResult), 0 < m →
      fetch q p = .ok st body →
      (st ≠ 200 ∨ (¬body.success ∧ body.statusMessage ≠ "")) →
      tmdbSearchPage fetch q m p acc =
        ([p], .error (.provider
          ("search request failed: " ++ body.statusMessage)))) := by
  constructor
  · intro fetch q m p st body acc hm hf he hnf
    exact omdbSearchPage_providerErr fetch q hm hf he hnf acc
  · intro fetch q m p st body acc hm hf hc
    exact tmdbSearchPage_providerErr fetch q hm hf hc acc

/-- Witness for the amended C6 on the unauthorized fixtures of the tests. -/
theorem c6_amended_witness :
    omdbSearchPage (fun _ _ => .ok 401 ⟨[], "", "Invalid API key!"⟩) "Test" 5 1 [] =
      ([1], .error (.provider
        ("OMDB API request failed with error: " ++ "Invalid API key!"))) ∧
    tmdbSearchPage (fun _ _ => .ok 401 ⟨[], 0, 0, false,
        "Invalid API key: You must be granted a valid key."⟩) "Star Wars" 5 1 [] =
      ([1], .error (.provider
        ("search request failed: " ++
          "Invalid API key: You must be granted a valid key."))) :=
  ⟨c6_amended.1 (fun _ _ => .ok 401 ⟨[], "", "Invalid API key!"⟩) "Test"
      5 1 401 ⟨[], "", "Invalid API key!"⟩ [] (by decide) rfl
      (by decide) (by decide),
   c6_amended.2 (fun _ _ => .ok 401 ⟨[], 0, 0, false,
        "Invalid API key: You must be granted a valid key."⟩) "Star Wars"
      5 1 401 ⟨[], 0, 0, false, "Invalid API key: You must be granted a valid key."⟩
      [] (by decide) rfl (Or.inl (by decide))⟩
/-- C5 counterexample: the claim says both adapters silently exclude items
whose native type has no mapping into the closed enum, but the OMDB adapter
performs no type filtering at all: a Search call whose page holds a single
item of native type "person" — a type with no mapping — returns that item. -/
theorem c5_counterexample :
    omdbSearch omdbPersonFetch "Test" 5 6 =
      some ([1], .ok [⟨"X", "2020", "id0", "", "poster0", "person"⟩]) ∧
    tmdbType "person" = none :=
  ⟨rfl, rfl⟩

/-- C5 amended: only the TMDB adapter filters: on a successful page fetch it
appends exactly the conversions of the first `m` mapped items — items whose
`media_type` has no mapping are excluded — and its continuation flag counts
only mapped items against the quota; moreover removing an unmapped item from
a page leaves the mapped selection unchanged, so unmapped items never consume
a slot.  The OMDB adapter copies every decoded item, type string included,
without filtering. -/
theorem c5_amended :
    (∀ (fetch : String → Nat → PageFetch TmdbResponse) (q : String) (m : Int)
      (p : Nat) (body : TmdbResponse) (acc : List SearchResult), 0 < m →
      fetch q p = .ok 200 body → (body.success = true ∨ body.statusMessage = "") →
      tmdbSearchPage fetch q m p acc =
        ([p], .ok (acc ++ ((body.result.filter tmdbMapped).take m.toNat).map tmdbToResult,
          decide ((p : Int) < body.totalPages ∧
            ((body.result.filter tmdbMapped).length : Int) < m)))) ∧
    (∀ (item : TmdbItem), tmdbMapped item = false →
      ∀ (items1 items2 : List TmdbItem),
        (items1 ++ item :: items2).filter tmdbMapped =
          (items1 ++ items2).filter tmdbMapped) ∧
    (∀ (m : Int) (items : List OmdbItem) (acc : List SearchResult), 0 ≤ m →
      omdbConvertLoop m items acc =
        (if (items.length : Int) ≤ m then m - items.length else -1,
         acc ++ (items.take m.toNat).map omdbToResult)) := by
  refine ⟨?_, ?_, ?_⟩
  · intro fetch q m p body acc hm hf hok
    exact tmdbSearchPage_success fetch q hm hf hok acc
  · intro item hitem items1 items2
    simp [List.filter_append, List.filter_cons, hitem]
  · intro m items acc hm
    exact omdbConvertLoop_eq items m hm acc

/-- Witness for the amended C5: a TMDB page led by a "person" item maps only
the two mapped items, the person consumes no quota slot. -/
theorem c5_amended_witness :
    tmdbSearchPage
        (fun _ _ => .ok 200 ⟨[⟨"P", "", "", "", "", "person", 14⟩,
          ⟨"", "TA", "2001", "a", "pa", "tv", 11⟩,
          ⟨"TB", "", "2002", "b", "pb", "movie", 12⟩], 2, 1, true, ""⟩)
        "q" 2 1 [] =
      ([1], .ok ([⟨"TA", "2001", "a", "11", "pa", "series"⟩,
        ⟨"TB", "2002", "b", "12", "pb", "movie"⟩], false)) ∧
    ([⟨"P", "", "", "", "", "person", 14⟩,
        ⟨"", "TA", "2001", "a", "pa", "tv", 11⟩] : List TmdbItem).filter tmdbMapped =
      ([⟨"", "TA", "2001", "a", "pa", "tv", 11⟩] : List TmdbItem).filter tmdbMapped ∧
    omdbConvertLoop 5 [⟨"X", "2020", "id0", "poster0", "person"⟩] [] =
      (4, [⟨"X", "2020", "id0", "", "poster0", "person"⟩]) :=
  ⟨c5_amended.1
      (fun _ _ => .ok 200 ⟨[⟨"P", "", "", "", "", "person", 14⟩,
        ⟨"", "TA", "2001", "a", "pa", "tv", 11⟩,
        ⟨"TB", "", "2002", "b", "pb", "movie", 12⟩], 2, 1, true, ""⟩)
      "q" 2 1 ⟨[⟨"P", "", "", "", "", "person", 14⟩,
        ⟨"", "TA", "2001", "a", "pa", "tv", 11⟩,
        ⟨"TB", "", "2002", "b", "pb", "movie", 12⟩], 2, 1, true, ""⟩ []
      (by decide) rfl (Or.inl rfl),
   c5_amended.2.1 ⟨"P", "", "", "", "", "person", 14⟩ rfl
      [] [⟨"", "TA", "2001", "a", "pa", "tv", 11⟩],
   c5_amended.2.2 5 [⟨"X", "2020", "id0", "poster0", "person"⟩] [] (by decide)⟩

/-- C8: on a successful page fetch the continuation flag is true exactly when
the provider reports more data beyond the current page and the quota was not
exhausted by the mapping step; the OMDB adapter derives the first conjunct by
comparing the cumulative count of canonical results accumulated across the
whole call against the reported total-result count, while the TMDB adapter
compares the current page number against the reported total-page count. -/
theorem c8_hasMorePages :
    (∀ (fetch : String → Nat → PageFetch OmdbResponse) (q : String) (m : Int)
      (p st : Nat) (body : OmdbResponse) (total : Int) (acc : List SearchResult),
      0 < m → fetch q p = .ok st body → body.error = "" →
      goAtoi body.totalResults = some total →
      omdbSearchPage fetch q m p acc =
        ([p], .ok (acc ++ (body.result.take m.toNat).map omdbToResult,
          decide ((((acc ++ (body.result.take m.toNat).map omdbToResult).length : Nat) : Int)
              < total ∧
            (body.result.length : Int) < m)))) ∧
    (∀ (fetch : String → Nat → PageFetch TmdbResponse) (q : String) (m : Int)
      (p : Nat) (body : TmdbResponse) (acc : List SearchResult),
      0 < m → fetch q p = .ok 200 body →
      (body.success = true ∨ body.statusMessage = "") →
      tmdbSearchPage fetch q m p acc =
        ([p], .ok (acc ++ ((body.result.filter tmdbMapped).take m.toNat).map tmdbToResult,
          decide ((p : Int) < body.totalPages ∧
            ((body.result.filter tmdbMapped).length : Int) < m)))) := by
  constructor
  · intro fetch q m p st body total acc hm hf he ht
    rw [omdbSearchPage_success fetch q hm hf he ht acc]
    have hiff : ((((acc ++ (body.result.take m.toNat).map omdbToResult).length : Nat) : Int)
          < total ∧ (body.result.length : Int) < m) ↔
        (((acc.length + min m.toNat body.result.length : Nat) : Int) < total ∧
          (body.result.length : Int) < m) := by
      simp [List.length_append, List.length_map, List.length_take]
    rw [decide_eq_decide.mpr hiff]
  · intro fetch q m p body acc hm hf hok
    exact tmdbSearchPage_success fetch q hm hf hok acc

/-- Witness for C8: a full first page below the total keeps paginating for
OMDB; a last page ends pagination for TMDB. -/
theorem c8_hasMorePages_witness :
    omdbSearchPage
        (fun _ _ => .ok 200 ⟨[⟨"A", "2001", "a", "pa", "movie"⟩,
          ⟨"B", "2002", "b", "pb", "series"⟩], "5", ""⟩) "q" 5 1 [] =
      ([1], .ok ([⟨"A", "2001", "a", "", "pa", "movie"⟩,
        ⟨"B", "2002", "b", "", "pb", "series"⟩], true)) ∧
    tmdbSearchPage
        (fun _ _ => .ok 200 ⟨[⟨"TB", "", "2002", "b", "pb", "movie", 12⟩], 1, 1, true, ""⟩)
        "q" 5 1 [] =
      ([1], .ok ([⟨"TB", "2002", "b", "12", "pb", "movie"⟩], false)) :=
  ⟨c8_hasMorePages.1
      (fun _ _ => .ok 200 ⟨[⟨"A", "2001", "a", "pa", "movie"⟩,
        ⟨"B", "2002", "b", "pb", "series"⟩], "5", ""⟩) "q" 5 1 200
      ⟨[⟨"A", "2001", "a", "pa", "movie"⟩,
        ⟨"B", "2002", "b", "pb", "series"⟩], "5", ""⟩ 5 []
      (by decide) rfl rfl rfl,
   c8_hasMorePages.2
      (fun _ _ => .ok 200 ⟨[⟨"TB", "", "2002", "b", "pb", "movie", 12⟩], 1, 1, true, ""⟩)
      "q" 5 1 ⟨[⟨"TB", "", "2002", "b", "pb", "movie", 12⟩], 1, 1, true, ""⟩ []
      (by decide) rfl (Or.inl rfl)⟩

/-- C9: a successful Search call requests consecutively ascending pages
starting at page 1, and its result is the concatenation, in ascending page
order, of blocks taken in provider order from each page — a prefix of the
page's decoded items (after the TMDB type filter) converted elementwise; no
re-sorting is applied. -/
theorem c9_order :
    (∀ (fetch : String → Nat → PageFetch OmdbResponse) (q : String)
      (maxResults : Int) (fuel : Nat) (pages : List Nat) (res : List SearchResult),
      omdbSearch fetch q maxResults fuel = some (pages, .ok res) →
      pages = List.range' 1 pages.length ∧
      ∃ ks : List Nat, ks.length = pages.length ∧
        res = ((pages.zip ks).map (fun pk => omdbSelect fetch q pk.1 pk.2)).flatten) ∧
    (∀ (fetch : String → Nat → PageFetch TmdbResponse) (q : String)
      (maxResults : Int) (fuel : Nat) (pages : List Nat) (res : List SearchResult),
      tmdbSearch fetch q maxResults fuel = some (pages, .ok res) →
      pages = List.range' 1 pages.length ∧
      ∃ ks : List Nat, ks.length = pages.length ∧
        res = ((pages.zip ks).map (fun pk => tmdbSelect fetch q pk.1 pk.2)).flatten) := by
  constructor
  · intro fetch q maxResults fuel pages res h
    by_cases hmax : maxResults ≤ 0
    · rw [omdbSearch, if_pos hmax] at h
      simp at h
    · rw [omdbSearch, if_neg hmax] at h
      obtain ⟨h1, ks, h2, h3⟩ := searchLoop_order _ maxResults (omdbSelect fetch q)
        (omdbSearchPage_block fetch q) fuel 1 [] pages res h
      exact ⟨h1, ks, h2, by simpa using h3⟩
  · intro fetch q maxResults fuel pages res h
    by_cases hmax : maxResults ≤ 0
    · rw [tmdbSearch, if_pos hmax] at h
      simp at h
    · rw [tmdbSearch, if_neg hmax] at h
      obtain ⟨h1, ks, h2, h3⟩ := searchLoop_order _ maxResults (tmdbSelect fetch q)
        (tmdbSearchPage_block fetch q) fuel 1 [] pages res h
      exact ⟨h1, ks, h2, by simpa using h3⟩

/-- Witness for C9 on a concrete two-page OMDB run. -/
theorem c9_order_witness :
    [1, 2] = List.range' 1 ([1, 2] : List Nat).length ∧
    ∃ ks : List Nat, ks.length = ([1, 2] : List Nat).length ∧
      ([⟨"A", "2001", "a", "", "pa", "movie"⟩,
        ⟨"B", "2002", "b", "", "pb", "series"⟩,
        ⟨"C", "2003", "c", "", "pc", "movie"⟩] : List SearchResult) =
        ((([1, 2] : List Nat).zip ks).map (fun pk =>
          omdbSelect (omdbHonestFetch 2 [⟨"A", "2001", "a", "pa", "movie"⟩,
            ⟨"B", "2002", "b", "pb", "series"⟩,
            ⟨"C", "2003", "c", "pc", "movie"⟩] "3") "q" pk.1 pk.2)).flatten :=
  c9_order.1 (omdbHonestFetch 2 [⟨"A", "2001", "a", "pa", "movie"⟩,
      ⟨"B", "2002", "b", "pb", "series"⟩,
      ⟨"C", "2003", "c", "pc", "movie"⟩] "3") "q" 5 6 [1, 2]
    [⟨"A", "2001", "a", "", "pa", "movie"⟩,
      ⟨"B", "2002", "b", "", "pb", "series"⟩,
      ⟨"C", "2003", "c", "", "pc", "movie"⟩] rfl
/-- C1: every successful Search call returns at most `maxResults` results
(both adapters, any oracle); and against an honest provider — every page is
the corresponding slice of a fixed corpus and the reported totals are true —
the returned length is exactly `maxResults` when the corpus is at least that
large, and exactly the corpus size otherwise (expressed as a minimum; for the
TMDB adapter the corpus items all carry a mapped media type). -/
theorem c1_quota :
    (∀ (fetch : String → Nat → PageFetch OmdbResponse) (q : String)
      (maxResults : Int) (fuel : Nat) (pages : List Nat) (res : List SearchResult),
      omdbSearch fetch q maxResults fuel = some (pages, .ok res) →
      (res.length : Int) ≤ maxResults) ∧
    (∀ (fetch : String → Nat → PageFetch TmdbResponse) (q : String)
      (maxResults : Int) (fuel : Nat) (pages : List Nat) (res : List SearchResult),
      tmdbSearch fetch q maxResults fuel = some (pages, .ok res) →
      (res.length : Int) ≤ maxResults) ∧
    (∀ (s : Nat) (corpus : List OmdbItem) (ts : String) (q : String)
      (maxResults : Int) (fuel : Nat), 0 < s →
      goAtoi ts = some (corpus.length : Int) → 0 < maxResults →
      maxResults ≤ (fuel : Int) →
      ∃ pages res, omdbSearch (omdbHonestFetch s corpus ts) q maxResults fuel =
          some (pages, .ok res) ∧ res.length = min corpus.length maxResults.toNat) ∧
    (∀ (s : Nat) (corpus : List TmdbItem) (q : String) (maxResults : Int)
      (fuel : Nat), 0 < s → (∀ r ∈ corpus, tmdbMapped r = true) → 0 < maxResults →
      maxResults ≤ (fuel : Int) →
      ∃ pages res, tmdbSearch (tmdbHonestFetch s corpus) q maxResults fuel =
          some (pages, .ok res) ∧ res.length = min corpus.length maxResults.toNat) := by
  refine ⟨?_, ?_, ?_, ?_⟩
  · intro fetch q maxResults fuel pages res h
    by_cases hmax : maxResults ≤ 0
    · rw [omdbSearch, if_pos hmax] at h
      simp at h
    · rw [omdbSearch, if_neg hmax] at h
      exact searchLoop_length_le _ maxResults (omdbSearchPage_extend fetch q)
        fuel 1 [] pages res (by simp; omega) h
  · intro fetch q maxResults fuel pages res h
    by_cases hmax : maxResults ≤ 0
    · rw [tmdbSearch, if_pos hmax] at h
      simp at h
    · rw [tmdbSearch, if_neg hmax] at h
      exact searchLoop_length_le _ maxResults (tmdbSearchPage_extend fetch q)
        fuel 1 [] pages res (by simp; omega) h
  · intro s corpus ts q maxResults fuel hs hts hmax hfuel
    obtain ⟨pages, hloop⟩ := omdbHonest_loop s hs corpus ts hts q maxResults fuel 0
      (by simpa using hmax) (by simp) (by simpa using hfuel)
    simp only [Nat.zero_mul, List.take_zero, List.map_nil, Nat.zero_add] at hloop
    refine ⟨pages, (corpus.take (min corpus.length maxResults.toNat)).map omdbToResult,
      ?_, ?_⟩
    · rw [omdbSearch, if_neg (by omega)]
      simpa using hloop
    · simp only [List.length_map, List.length_take]
      omega
  · intro s corpus q maxResults fuel hs hmap hmax hfuel
    obtain ⟨pages, hloop⟩ := tmdbHonest_loop s hs corpus hmap q maxResults fuel 0
      (by simpa using hmax) (by simp) (by simpa using hfuel)
    simp only [Nat.zero_mul, List.take_zero, List.map_nil, Nat.zero_add] at hloop
    refine ⟨pages, (corpus.take (min corpus.length maxResults.toNat)).map tmdbToResult,
      ?_, ?_⟩
    · rw [tmdbSearch, if_neg (by omega)]
      simpa using hloop
    · simp only [List.length_map, List.length_take]
      omega

/-- Witness for C1: honest three-item corpora, page size 2, quotas 2 and 5. -/
theorem c1_quota_witness :
    ((([⟨"A", "2001", "a", "", "pa", "movie"⟩,
        ⟨"B", "2002", "b", "", "pb", "series"⟩] : List SearchResult).length : Int) ≤ 2) ∧
    ((([⟨"TA", "2001", "a", "11", "pa", "series"⟩,
        ⟨"TB", "2002", "b", "12", "pb", "movie"⟩] : List SearchResult).length : Int) ≤ 2) ∧
    (∃ pages res, omdbSearch (omdbHonestFetch 2 [⟨"A", "2001", "a", "pa", "movie"⟩,
        ⟨"B", "2002", "b", "pb", "series"⟩, ⟨"C", "2003", "c", "pc", "movie"⟩] "3")
        "q" 5 6 = some (pages, .ok res) ∧
      res.length = min ([⟨"A", "2001", "a", "pa", "movie"⟩,
        ⟨"B", "2002", "b", "pb", "series"⟩,
        ⟨"C", "2003", "c", "pc", "movie"⟩] : List OmdbItem).length (5 : Int).toNat) ∧
    (∃ pages res, tmdbSearch (tmdbHonestFetch 2 [⟨"", "TA", "2001", "a", "pa", "tv", 11⟩,
        ⟨"TB", "", "2002", "b", "pb", "movie", 12⟩,
        ⟨"TC", "", "2003", "c", "pc", "movie", 13⟩]) "q" 5 6 = some (pages, .ok res) ∧
      res.length = min ([⟨"", "TA", "2001", "a", "pa", "tv", 11⟩,
        ⟨"TB", "", "2002", "b", "pb", "movie", 12⟩,
        ⟨"TC", "", "2003", "c", "pc", "movie", 13⟩] : List TmdbItem).length
        (5 : Int).toNat) :=
  ⟨c1_quota.1 (omdbHonestFetch 2 [⟨"A", "2001", "a", "pa", "movie"⟩,
      ⟨"B", "2002", "b", "pb", "series"⟩, ⟨"C", "2003", "c", "pc", "movie"⟩] "3")
      "q" 2 6 [1]
      [⟨"A", "2001", "a", "", "pa", "movie"⟩, ⟨"B", "2002", "b", "", "pb", "series"⟩] rfl,
   c1_quota.2.1 (tmdbHonestFetch 2 [⟨"", "TA", "2001", "a", "pa", "tv", 11⟩,
      ⟨"TB", "", "2002", "b", "pb", "movie", 12⟩,
      ⟨"TC", "", "2003", "c", "pc", "movie", 13⟩]) "q" 2 6 [1]
      [⟨"TA", "2001", "a", "11", "pa", "series"⟩,
        ⟨"TB", "2002", "b", "12", "pb", "movie"⟩] rfl,
   c1_quota.2.2.1 2 [⟨"A", "2001", "a", "pa", "movie"⟩,
      ⟨"B", "2002", "b", "pb", "series"⟩, ⟨"C", "2003", "c", "pc", "movie"⟩] "3"
      "q" 5 6 (by decide) (by decide) (by decide) (by decide),
   c1_quota.2.2.2 2 [⟨"", "TA", "2001", "a", "pa", "tv", 11⟩,
      ⟨"TB", "", "2002", "b", "pb", "movie", 12⟩,
      ⟨"TC", "", "2003", "c", "pc", "movie", 13⟩] "q" 5 6 (by decide)
      (by intro r hr
          simp only [List.mem_cons, List.not_mem_nil, or_false] at hr
          rcases hr with rfl | rfl | rfl <;> rfl)
      (by decide) (by decide)⟩

/-- C3: against an honest provider the pagination loop terminates for both
adapters: with fuel at least `maxResults` (OMDB) or at least the reported
total page count plus one (TMDB), the loop completes instead of running out
of fuel, for every positive quota. -/
theorem c3_termination :
    (∀ (s : Nat) (corpus : List OmdbItem) (ts : String) (q : String)
      (maxResults : Int) (fuel : Nat), 0 < s →
      goAtoi ts = some (corpus.length : Int) → 0 < maxResults →
      maxResults ≤ (fuel : Int) →
      (omdbSearch (omdbHonestFetch s corpus ts) q maxResults fuel).isSome) ∧
    (∀ (s : Nat) (corpus : List TmdbItem) (q : String) (maxResults : Int)
      (fuel : Nat), 0 < s → 0 < maxResults →
      (corpus.length + s - 1) / s < fuel →
      (tmdbSearch (tmdbHonestFetch s corpus) q maxResults fuel).isSome) := by
  constructor
  · intro s corpus ts q maxResults fuel hs hts hmax hfuel
    obtain ⟨pages, hloop⟩ := omdbHonest_loop s hs corpus ts hts q maxResults fuel 0
      (by simpa using hmax) (by simp) (by simpa using hfuel)
    simp only [Nat.zero_mul, List.take_zero, List.map_nil, Nat.zero_add] at hloop
    rw [omdbSearch, if_neg (by omega)]
    rw [hloop]
    rfl
  · intro s corpus q maxResults fuel hs hmax hfuel
    rw [tmdbSearch, if_neg (by omega)]
    refine tmdb_searchLoop_isSome (tmdbHonestFetch s corpus) q maxResults
      (((corpus.length + s - 1) / s : Nat) : Int) ?_ fuel 1 []
      (lt_of_le_of_lt (Nat.zero_le _) hfuel)
      (by exact_mod_cast (lt_of_lt_of_le hfuel (by omega) :
        (corpus.length + s - 1) / s < 1 + fuel))
    intro p st body hf
    simp only [tmdbHonestFetch, PageFetch.ok.injEq] at hf
    rcases hf with ⟨-, rfl⟩
    rfl

/-- Witness for C3 on the honest three-item corpora. -/
theorem c3_termination_witness :
    (omdbSearch (omdbHonestFetch 2 [⟨"A", "2001", "a", "pa", "movie"⟩,
      ⟨"B", "2002", "b", "pb", "series"⟩, ⟨"C", "2003", "c", "pc", "movie"⟩] "3")
      "q" 5 6).isSome = true ∧
    (tmdbSearch (tmdbHonestFetch 2 [⟨"", "TA", "2001", "a", "pa", "tv", 11⟩,
      ⟨"P", "", "", "", "", "person", 14⟩,
      ⟨"TC", "", "2003", "c", "pc", "movie", 13⟩]) "q" 5 6).isSome = true :=
  ⟨c3_termination.1 2 [⟨"A", "2001", "a", "pa", "movie"⟩,
      ⟨"B", "2002", "b", "pb", "series"⟩, ⟨"C", "2003", "c", "pc", "movie"⟩] "3"
      "q" 5 6 (by decide) (by decide) (by decide) (by decide),
   c3_termination.2 2 [⟨"", "TA", "2001", "a", "pa", "tv", 11⟩,
      ⟨"P", "", "", "", "", "person", 14⟩,
      ⟨"TC", "", "2003", "c", "pc", "movie", 13⟩] "q" 5 6 (by decide) (by decide)
      (by decide)⟩

end GoGetTitles
